import Mathlib

/-!
Shallow embedding of the Arkanoid clone in `Arknoid C++11/main.cpp`.

Float arithmetic of the source (`float`, SFML `Vector2f`) is modelled with
exact rationals `ℚ`; SFML shapes are reduced to the state the simulation
reads and writes (center position, velocity, extents, destroyed flag).
Window creation, event polling, keyboard queries and drawing are external
surfaces: the keyboard state and the polled events of one frame enter the
model as explicit inputs, and draw calls change no simulation state.
-/

/-- Compile-time constants of `main.cpp` (`constexpr` block). -/
def windowWidth : ℚ := 800

def windowHeight : ℚ := 600

def ballRadius : ℚ := 10

/-- `ballVelocity` is `0.4f` in the source; `2/5` exactly. -/
def ballVelocity : ℚ := 2/5

def paddleWidth : ℚ := 60

def paddleHeight : ℚ := 20

def paddleVelocity : ℚ := 1

def blockWidth : ℚ := 60

def blockHeight : ℚ := 20

def countBlocksX : ℕ := 11

def countBlocksY : ℕ := 4

def ftStep : ℚ := 1

def ftSlice : ℚ := 1

/-- SFML `Vector2f`, with exact coordinates. -/
structure Vec2 where
  x : ℚ
  y : ℚ
deriving DecidableEq

/-- The keyboard state the core samples through `Keyboard::isKeyPressed`. -/
structure Keys where
  leftDown : Bool
  rightDown : Bool
  escapeDown : Bool
  spaceDown : Bool
deriving DecidableEq

/-- `struct Ball`: the circle shape reduced to its center plus the velocity
vector; the radius is always the constant `ballRadius`. -/
structure Ball where
  pos : Vec2
  velocity : Vec2
deriving DecidableEq

/-- The ball constructed by `Ball(mX, mY)` with the member initializer
`velocity{-ballVelocity, -ballVelocity}`. -/
def Ball.mkAt (mX mY : ℚ) : Ball :=
  { pos := ⟨mX, mY⟩, velocity := ⟨-ballVelocity, -ballVelocity⟩ }

def Ball.x (b : Ball) : ℚ := b.pos.x

def Ball.y (b : Ball) : ℚ := b.pos.y

def Ball.left (b : Ball) : ℚ := b.x - ballRadius

def Ball.right (b : Ball) : ℚ := b.x + ballRadius

def Ball.top (b : Ball) : ℚ := b.y - ballRadius

def Ball.bottom (b : Ball) : ℚ := b.y + ballRadius

/-- `Ball::resetBall`: reposition to the playfield center and force the
vertical velocity upward; the horizontal velocity is left unchanged. -/
def Ball.resetBall (b : Ball) : Ball :=
  { b with
    pos := ⟨windowWidth / 2, windowHeight / 2⟩
    velocity := ⟨b.velocity.x, -ballVelocity⟩ }

/-- `Ball::update(mFT)`: move by `velocity * mFT`, then apply the three
boundary checks in source order.  The first check,
`if(bottom() > windowHeight) velocity.y = velocity.y;`, is a no-op kept
verbatim.  The source returns `true` unconditionally; the returned flag is
dropped here since no caller reads it. -/
def Ball.update (b : Ball) (mFT : ℚ) : Ball :=
  let b1 : Ball := { b with pos := ⟨b.pos.x + b.velocity.x * mFT, b.pos.y + b.velocity.y * mFT⟩ }
  let b2 : Ball :=
    if b1.bottom > windowHeight then { b1 with velocity := ⟨b1.velocity.x, b1.velocity.y⟩ }
    else b1
  let b3 : Ball :=
    if b2.left < 0 ∨ b2.right > windowWidth then { b2 with velocity := ⟨-b2.velocity.x, b2.velocity.y⟩ }
    else b2
  let b4 : Ball :=
    if b3.top < 0 then { b3 with velocity := ⟨b3.velocity.x, -b3.velocity.y⟩ }
    else b3
  b4

/-- `struct Paddle : Rectangle`: the rectangle shape reduced to its center,
plus the velocity vector (default-constructed to `(0, 0)`); the size is
always `paddleWidth × paddleHeight`. -/
structure Paddle where
  pos : Vec2
  velocity : Vec2
deriving DecidableEq

def Paddle.mkAt (mX mY : ℚ) : Paddle :=
  { pos := ⟨mX, mY⟩, velocity := ⟨0, 0⟩ }

def Paddle.x (p : Paddle) : ℚ := p.pos.x

def Paddle.y (p : Paddle) : ℚ := p.pos.y

def Paddle.left (p : Paddle) : ℚ := p.x - paddleWidth / 2

def Paddle.right (p : Paddle) : ℚ := p.x + paddleWidth / 2

def Paddle.top (p : Paddle) : ℚ := p.y - paddleHeight / 2

def Paddle.bottom (p : Paddle) : ℚ := p.y + paddleHeight / 2

/-- `Paddle::update(mFT)`: move by `velocity * mFT` first, then recompute
the horizontal velocity from the sampled keyboard state and the post-move
position.  The keyboard reads (`Keyboard::isKeyPressed`) are passed in as
`keys`. -/
def Paddle.update (p : Paddle) (keys : Keys) (mFT : ℚ) : Paddle :=
  let p1 : Paddle := { p with pos := ⟨p.pos.x + p.velocity.x * mFT, p.pos.y + p.velocity.y * mFT⟩ }
  if keys.leftDown = true ∧ p1.left > 0 then
    { p1 with velocity := ⟨-paddleVelocity, p1.velocity.y⟩ }
  else if keys.rightDown = true ∧ p1.right < windowWidth then
    { p1 with velocity := ⟨paddleVelocity, p1.velocity.y⟩ }
  else
    { p1 with velocity := ⟨0, p1.velocity.y⟩ }

/-- `struct Brick : Rectangle`: center position, fixed
`blockWidth × blockHeight` size, and the `destroyed` flag. -/
structure Brick where
  pos : Vec2
  destroyed : Bool
deriving DecidableEq

def Brick.mkAt (mX mY : ℚ) : Brick :=
  { pos := ⟨mX, mY⟩, destroyed := false }

def Brick.x (br : Brick) : ℚ := br.pos.x

def Brick.y (br : Brick) : ℚ := br.pos.y

def Brick.left (br : Brick) : ℚ := br.x - blockWidth / 2

def Brick.right (br : Brick) : ℚ := br.x + blockWidth / 2

def Brick.top (br : Brick) : ℚ := br.y - blockHeight / 2

def Brick.bottom (br : Brick) : ℚ := br.y + blockHeight / 2

/-- The axis-aligned extent quadruple the template `isIntersecting<T1,T2>`
reads from each entity through its `left/right/top/bottom` methods. -/
structure Box where
  left : ℚ
  right : ℚ
  top : ℚ
  bottom : ℚ
deriving DecidableEq

def Ball.toBox (b : Ball) : Box :=
  ⟨b.left, b.right, b.top, b.bottom⟩

def Paddle.toBox (p : Paddle) : Box :=
  ⟨p.left, p.right, p.top, p.bottom⟩

def Brick.toBox (br : Brick) : Box :=
  ⟨br.left, br.right, br.top, br.bottom⟩

/-- `isIntersecting(mA, mB)`: inclusive overlap test on both axes, in the
source's conjunct order. -/
def isIntersecting (mA mB : Box) : Bool :=
  decide (mA.right ≥ mB.left ∧ mA.left ≤ mB.right ∧ mA.bottom ≥ mB.top ∧ mA.top ≤ mB.bottom)

/-- `testCollision(Paddle&, Ball&)`: only the ball is mutated, so the model
returns the updated ball. -/
def testCollisionPaddle (mPaddle : Paddle) (mBall : Ball) : Ball :=
  if ¬ isIntersecting mPaddle.toBox mBall.toBox then mBall
  else
    let mBall1 : Ball := { mBall with velocity := ⟨mBall.velocity.x, -ballVelocity⟩ }
    if mBall1.x < mPaddle.x then { mBall1 with velocity := ⟨-ballVelocity, mBall1.velocity.y⟩ }
    else { mBall1 with velocity := ⟨ballVelocity, mBall1.velocity.y⟩ }

/-- `mBall.right() - mBrick.left()` in `testCollision(Brick&, Ball&)`. -/
def overlapLeft (mBrick : Brick) (mBall : Ball) : ℚ := mBall.right - mBrick.left

/-- `mBrick.right() - mBall.left()`. -/
def overlapRight (mBrick : Brick) (mBall : Ball) : ℚ := mBrick.right - mBall.left

/-- `mBall.bottom() - mBrick.top()`. -/
def overlapTop (mBrick : Brick) (mBall : Ball) : ℚ := mBall.bottom - mBrick.top

/-- `mBrick.bottom() - mBall.top()`. -/
def overlapBottom (mBrick : Brick) (mBall : Ball) : ℚ := mBrick.bottom - mBall.top

/-- `bool ballFromLeft(overlapLeft < overlapRight)`. -/
def ballFromLeft (mBrick : Brick) (mBall : Ball) : Bool :=
  decide (overlapLeft mBrick mBall < overlapRight mBrick mBall)

/-- `bool ballFromTop(overlapTop < overlapBottom)`. -/
def ballFromTop (mBrick : Brick) (mBall : Ball) : Bool :=
  decide (overlapTop mBrick mBall < overlapBottom mBrick mBall)

/-- `float minOverlapX{ballFromLeft ? overlapLeft : overlapRight}`. -/
def minOverlapX (mBrick : Brick) (mBall : Ball) : ℚ :=
  if ballFromLeft mBrick mBall then overlapLeft mBrick mBall else overlapRight mBrick mBall

/-- `float minOverlapY{ballFromTop ? overlapTop : overlapBottom}`. -/
def minOverlapY (mBrick : Brick) (mBall : Ball) : ℚ :=
  if ballFromTop mBrick mBall then overlapTop mBrick mBall else overlapBottom mBrick mBall

/-- `testCollision(Brick&, Ball&)`: both the brick (its `destroyed` flag)
and the ball (one velocity component) may be mutated. -/
def testCollisionBrick (mBrick : Brick) (mBall : Ball) : Brick × Ball :=
  if ¬ isIntersecting mBrick.toBox mBall.toBox then (mBrick, mBall)
  else
    let mBrick1 : Brick := { mBrick with destroyed := true }
    if minOverlapX mBrick1 mBall < minOverlapY mBrick1 mBall then
      (mBrick1,
       { mBall with velocity :=
          ⟨if ballFromLeft mBrick1 mBall then -ballVelocity else ballVelocity, mBall.velocity.y⟩ })
    else
      (mBrick1,
       { mBall with velocity :=
          ⟨mBall.velocity.x, if ballFromTop mBrick1 mBall then -ballVelocity else ballVelocity⟩ })

/-- The entity state owned by `struct Game`: the ball, the paddle and the
live brick collection. -/
structure Entities where
  ball : Ball
  paddle : Paddle
  bricks : List Brick
deriving DecidableEq

/-- The brick grid built in the `Game` constructor: for `iX` in
`0..countBlocksX-1` and, innermost, `iY` in `0..countBlocksY-1`, a brick at
`((iX+1)*(blockWidth+3)+22, (iY+2)*(blockHeight+3))`. -/
def initialBricks : List Brick :=
  (List.range countBlocksX).flatMap (fun iX =>
    (List.range countBlocksY).map (fun iY =>
      Brick.mkAt ((iX + 1) * (blockWidth + 3) + 22) ((iY + 2) * (blockHeight + 3))))

/-- The entity state the `Game` constructor produces: ball at the playfield
center, paddle at `(windowWidth/2, windowHeight-50)`, the brick grid. -/
def initialEntities : Entities :=
  { ball := Ball.mkAt (windowWidth / 2) (windowHeight / 2)
    paddle := Paddle.mkAt (windowWidth / 2) (windowHeight - 50)
    bricks := initialBricks }

/-- The loop `for (auto &brick : bricks) testCollision(brick, ball);`:
each brick is tested in collection order against the ball as mutated by
the earlier tests of the same step. -/
def collideBricks : List Brick → Ball → List Brick × Ball
  | [], mBall => ([], mBall)
  | mBrick :: rest, mBall =>
      let hit := testCollisionBrick mBrick mBall
      let tail := collideBricks rest hit.2
      (hit.1 :: tail.1, tail.2)

/-- One fixed simulation step: the body of the slice loop in
`Game::updatePhase` — ball update, paddle update, paddle collision, brick
collisions in collection order, then erase-remove of destroyed bricks. -/
def simStep (keys : Keys) (e : Entities) : Entities :=
  let ball1 := e.ball.update ftStep
  let paddle1 := e.paddle.update keys ftStep
  let ball2 := testCollisionPaddle paddle1 ball1
  let hit := collideBricks e.bricks ball2
  { ball := hit.2
    paddle := paddle1
    bricks := hit.1.filter (fun mBrick => !mBrick.destroyed) }

/-- The slice loop of `Game::updatePhase`:
`for (; currentSlice >= ftSlice; currentSlice -= ftSlice)` run one
simulation step.  Returns the leftover slice, the final entity state and
the number of simulation steps executed. -/
def runSlices (keys : Keys) (slice : ℚ) (e : Entities) : ℚ × Entities × ℕ :=
  if h : slice ≥ ftSlice then
    let r := runSlices keys (slice - ftSlice) (simStep keys e)
    (r.1, r.2.1, r.2.2 + 1)
  else
    (slice, e, 0)
termination_by (⌊slice⌋).toNat
decreasing_by
  have h1 : (1 : ℚ) ≤ slice := by simp only [ftSlice] at h; exact h
  have hfloor : 1 ≤ ⌊slice⌋ := by exact_mod_cast Int.le_floor.mpr (by exact_mod_cast h1)
  have : ⌊slice - ftSlice⌋ = ⌊slice⌋ - 1 := by
    have hf := Int.floor_sub_int slice 1
    simp only [ftSlice]
    simp only [Int.cast_one] at hf
    exact hf
  omega

/-- `Game::updatePhase` acting on the scheduler state: add the last frame
duration to the accumulator, then drain it in fixed steps.  Returns the
leftover accumulator, the entity state and the step count. -/
def updatePhase (keys : Keys) (lastFT currentSlice : ℚ) (e : Entities) : ℚ × Entities × ℕ :=
  runSlices keys (currentSlice + lastFT) e

/-- The events and keyboard state observed by one `Game::inputPhase` call:
whether a `Event::Closed` was polled, and the key states. -/
structure FrameInput where
  closeEvent : Bool
  keys : Keys
deriving DecidableEq

/-- The full `Game` state the loop manipulates: the window-open flag (the
window is closed by `window.close()`), the scheduler fields `lastFT` and
`currentSlice`, the `running` flag, and the entities. -/
structure Game where
  windowOpen : Bool
  lastFT : ℚ
  currentSlice : ℚ
  running : Bool
  entities : Entities
deriving DecidableEq

/-- `Game::inputPhase`: drain the event queue (an `Event::Closed` calls
`window.close()`), then `Escape` clears `running`, then `Space` resets the
ball. -/
def inputPhase (inp : FrameInput) (g : Game) : Game :=
  let g1 := if inp.closeEvent then { g with windowOpen := false } else g
  let g2 := if inp.keys.escapeDown then { g1 with running := false } else g1
  if inp.keys.spaceDown then
    { g2 with entities := { g2.entities with ball := g2.entities.ball.resetBall } }
  else g2

/-- `Game::updatePhase` at the `Game` level: consumes `currentSlice + lastFT`
through the slice loop and stores the leftover back in `currentSlice`. -/
def updatePhaseGame (keys : Keys) (g : Game) : Game :=
  let r := updatePhase keys g.lastFT g.currentSlice g.entities
  { g with currentSlice := r.1, entities := r.2.1 }

/-- `Game::drawPhase` only submits shapes to the display surface; it changes
no simulation state. -/
def drawPhase (g : Game) : Game := g

/-- One frame of external input to a loop iteration: what `inputPhase`
observes, and the wall-clock duration measured at the end of the iteration
(stored into `lastFT`). -/
structure Frame where
  input : FrameInput
  measuredFT : ℚ
deriving DecidableEq

/-- The body of one `while(running)` iteration of `Game::run`: clear
(display-only), input phase, update phase, draw phase, then store the
measured frame duration into `lastFT` (the title update is display-only). -/
def loopIteration (f : Frame) (g : Game) : Game :=
  let g1 := inputPhase f.input g
  let g2 := updatePhaseGame f.input.keys g1
  let g3 := drawPhase g2
  { g3 with lastFT := f.measuredFT }

/-- The `while(running)` loop of `Game::run`, fed by a stream of frames:
the flag is checked once per outer iteration; when it is false the loop
exits.  Returns the final state and the number of iterations executed. -/
def runLoop : List Frame → Game → Game × ℕ
  | [], g => (g, 0)
  | f :: rest, g =>
      if g.running then
        let r := runLoop rest (loopIteration f g)
        (r.1, r.2 + 1)
      else
        (g, 0)

/-- `Game::run`: set `running`, then loop. -/
def runGame (fs : List Frame) (g : Game) : Game × ℕ :=
  runLoop fs { g with running := true }

/-! ## Helper lemmas -/

attribute [simp] windowWidth windowHeight ballRadius ballVelocity paddleWidth paddleHeight
  paddleVelocity blockWidth blockHeight ftStep ftSlice

attribute [simp] Ball.mkAt Ball.x Ball.y Ball.left Ball.right Ball.top Ball.bottom Ball.toBox

attribute [simp] Paddle.mkAt Paddle.x Paddle.y Paddle.left Paddle.right Paddle.top Paddle.bottom
  Paddle.toBox

attribute [simp] Brick.mkAt Brick.x Brick.y Brick.left Brick.right Brick.top Brick.bottom
  Brick.toBox

/-- Unfolding `runSlices` when the accumulator still holds a full slice. -/
theorem runSlices_ge (keys : Keys) (s : ℚ) (e : Entities) (h : ftSlice ≤ s) :
    runSlices keys s e =
      ((runSlices keys (s - ftSlice) (simStep keys e)).1,
       (runSlices keys (s - ftSlice) (simStep keys e)).2.1,
       (runSlices keys (s - ftSlice) (simStep keys e)).2.2 + 1) := by
  rw [runSlices, dif_pos h]

/-- Unfolding `runSlices` when the accumulator is below one slice: the loop
body never runs. -/
theorem runSlices_lt (keys : Keys) (s : ℚ) (e : Entities) (h : ¬ ftSlice ≤ s) :
    runSlices keys s e = (s, e, 0) := by
  rw [runSlices, dif_neg h]

/-- A loop whose `running` flag is already false executes no iterations. -/
theorem runLoop_stopped (fs : List Frame) (g : Game) (h : g.running = false) :
    runLoop fs g = (g, 0) := by
  cases fs with
  | nil => rfl
  | cons f rest => simp [runLoop, h]

/-! ## Claim theorems -/

/-- **C9**: the intersection predicate is symmetric, and its comparisons are
inclusive: extents that merely touch at a boundary (here `mA.right = mB.left`,
with overlapping vertical extents and well-formed boxes) count as
intersecting. -/
theorem isIntersecting_symm_inclusive :
    (∀ mA mB : Box, isIntersecting mA mB = isIntersecting mB mA) ∧
    (∀ mA mB : Box, mA.right = mB.left → mB.top ≤ mA.bottom → mA.top ≤ mB.bottom →
      mA.left ≤ mA.right → mB.left ≤ mB.right → isIntersecting mA mB = true) := by
  constructor
  · intro mA mB
    simp only [isIntersecting, decide_eq_decide]
    constructor
    · rintro ⟨h1, h2, h3, h4⟩
      exact ⟨h2, h1, h4, h3⟩
    · rintro ⟨h1, h2, h3, h4⟩
      exact ⟨h2, h1, h4, h3⟩
  · intro mA mB htouch hv1 hv2 ha hb
    simp only [isIntersecting, decide_eq_true_eq]
    exact ⟨le_of_eq htouch.symm, by linarith, hv1, hv2⟩

/-- Witness for **C9** at two concrete boxes touching at `x = 10`. -/
theorem isIntersecting_symm_inclusive_witness :
    isIntersecting ⟨0, 10, 0, 10⟩ ⟨10, 20, 0, 10⟩ = isIntersecting ⟨10, 20, 0, 10⟩ ⟨0, 10, 0, 10⟩ ∧
    isIntersecting ⟨0, 10, 0, 10⟩ ⟨10, 20, 0, 10⟩ = true :=
  ⟨isIntersecting_symm_inclusive.1 ⟨0, 10, 0, 10⟩ ⟨10, 20, 0, 10⟩,
   isIntersecting_symm_inclusive.2 ⟨0, 10, 0, 10⟩ ⟨10, 20, 0, 10⟩ rfl (by decide) (by decide)
     (by decide) (by decide)⟩

/-- **C5**: paddle-ball resolution is a no-op without intersection; on
intersection the vertical velocity is forced to the upward constant and the
horizontal velocity is set leftward iff the ball center is left of the
paddle center; the ball position is untouched. -/
theorem testCollisionPaddle_spec (mPaddle : Paddle) (mBall : Ball) :
    (isIntersecting mPaddle.toBox mBall.toBox = false →
      testCollisionPaddle mPaddle mBall = mBall) ∧
    (isIntersecting mPaddle.toBox mBall.toBox = true →
      (testCollisionPaddle mPaddle mBall).velocity.y = -ballVelocity ∧
      (mBall.x < mPaddle.x → (testCollisionPaddle mPaddle mBall).velocity.x = -ballVelocity) ∧
      (¬ mBall.x < mPaddle.x → (testCollisionPaddle mPaddle mBall).velocity.x = ballVelocity) ∧
      (testCollisionPaddle mPaddle mBall).pos = mBall.pos) := by
  constructor
  · intro h
    simp at h
    simp [testCollisionPaddle, h]
  · intro h
    simp at h
    simp only [testCollisionPaddle]
    rw [if_neg (by simp [h])]
    by_cases hx : mBall.x < mPaddle.x
    · rw [if_pos (by simpa using hx)]
      exact ⟨rfl, fun _ => rfl, fun hc => absurd hx hc, rfl⟩
    · rw [if_neg (by simpa using hx)]
      exact ⟨rfl, fun hc => absurd hc hx, fun _ => rfl, rfl⟩

/-- Witness for **C5**: the spec's end-to-end scenario — paddle centered at
`x = 400`, intersecting ball centered at `x = 380`, post-collision velocity
`(-2/5, -2/5)`. -/
theorem testCollisionPaddle_spec_witness :
    (testCollisionPaddle (Paddle.mkAt 400 550) ⟨⟨380, 535⟩, ⟨2/5, 2/5⟩⟩).velocity.y = -ballVelocity ∧
    (testCollisionPaddle (Paddle.mkAt 400 550) ⟨⟨380, 535⟩, ⟨2/5, 2/5⟩⟩).velocity.x = -ballVelocity :=
  ⟨((testCollisionPaddle_spec (Paddle.mkAt 400 550) ⟨⟨380, 535⟩, ⟨2/5, 2/5⟩⟩).2
      (by norm_num [isIntersecting])).1,
   ((testCollisionPaddle_spec (Paddle.mkAt 400 550) ⟨⟨380, 535⟩, ⟨2/5, 2/5⟩⟩).2
      (by norm_num [isIntersecting])).2.1 (by norm_num)⟩

/-- **C7**: the bottom-boundary quirk.  Whenever the moved ball's bottom edge
passes the bottom of the playfield, `Ball::update` leaves the vertical
velocity unchanged and the ball keeps its out-of-field position: the
`velocity.y = velocity.y` branch is a no-op and the top-edge flip cannot
fire there. -/
theorem ball_update_bottom_no_bounce (b : Ball) (mFT : ℚ)
    (h : b.pos.y + b.velocity.y * mFT + ballRadius > windowHeight) :
    (b.update mFT).velocity.y = b.velocity.y ∧
    (b.update mFT).pos.y = b.pos.y + b.velocity.y * mFT := by
  simp only [Ball.update, Ball.bottom, Ball.top, Ball.left, Ball.right, Ball.x, Ball.y,
    windowHeight, windowWidth, ballRadius] at h ⊢
  split_ifs with hx ht1 ht2
  · exfalso
    simp at ht1
    linarith
  · exact ⟨rfl, rfl⟩
  · exfalso
    simp at ht2
    linarith
  · exact ⟨rfl, rfl⟩

/-- Witness for **C7**: a ball just above the bottom edge moving down keeps
its downward velocity while exiting the playfield. -/
theorem ball_update_bottom_no_bounce_witness :
    ((⟨⟨400, 595⟩, ⟨2/5, 2/5⟩⟩ : Ball).update 1).velocity.y = (2/5 : ℚ) ∧
    ((⟨⟨400, 595⟩, ⟨2/5, 2/5⟩⟩ : Ball).update 1).pos.y = 595 + (2/5 : ℚ) * 1 :=
  ball_update_bottom_no_bounce ⟨⟨400, 595⟩, ⟨2/5, 2/5⟩⟩ 1 (by norm_num)

/-- `|ballVelocity| = ballVelocity`. -/
theorem abs_bv : |ballVelocity| = ballVelocity := abs_of_pos (by norm_num)

/-- `|-ballVelocity| = ballVelocity`. -/
theorem abs_neg_bv : |(-ballVelocity)| = ballVelocity := by
  rw [abs_neg]; exact abs_bv

/-- The per-axis speed invariant stated by the spec: each velocity component
of the ball has magnitude exactly `ballVelocity`. -/
def axisSpeedInv (b : Ball) : Prop :=
  |b.velocity.x| = ballVelocity ∧ |b.velocity.y| = ballVelocity

/-- `Ball::update` only ever keeps or negates the horizontal velocity. -/
theorem ball_update_velx (b : Ball) (mFT : ℚ) :
    (b.update mFT).velocity.x = b.velocity.x ∨ (b.update mFT).velocity.x = -b.velocity.x := by
  simp only [Ball.update]
  split_ifs <;> simp

/-- `Ball::update` only ever keeps or negates the vertical velocity. -/
theorem ball_update_vely (b : Ball) (mFT : ℚ) :
    (b.update mFT).velocity.y = b.velocity.y ∨ (b.update mFT).velocity.y = -b.velocity.y := by
  simp only [Ball.update]
  split_ifs <;> simp

/-- **C1**: every simulation operation touching the ball — construction,
`Ball::update`, paddle-ball resolution, brick-ball resolution and
`Ball::resetBall` — preserves the invariant that each velocity component has
magnitude exactly `ballVelocity`; only signs change. -/
theorem ball_axis_speed_invariant :
    (∀ mX mY : ℚ, axisSpeedInv (Ball.mkAt mX mY)) ∧
    (∀ (b : Ball) (mFT : ℚ), axisSpeedInv b → axisSpeedInv (b.update mFT)) ∧
    (∀ (mPaddle : Paddle) (b : Ball), axisSpeedInv b →
      axisSpeedInv (testCollisionPaddle mPaddle b)) ∧
    (∀ (mBrick : Brick) (b : Ball), axisSpeedInv b →
      axisSpeedInv (testCollisionBrick mBrick b).2) ∧
    (∀ b : Ball, axisSpeedInv b → axisSpeedInv b.resetBall) := by
  refine ⟨?_, ?_, ?_, ?_, ?_⟩
  · intro mX mY
    exact ⟨abs_neg_bv, abs_neg_bv⟩
  · intro b mFT hb
    obtain ⟨hx, hy⟩ := hb
    constructor
    · rcases ball_update_velx b mFT with h1 | h1
      · rw [h1]; exact hx
      · rw [h1, abs_neg]; exact hx
    · rcases ball_update_vely b mFT with h2 | h2
      · rw [h2]; exact hy
      · rw [h2, abs_neg]; exact hy
  · intro mPaddle b hb
    obtain ⟨hx, hy⟩ := hb
    simp only [testCollisionPaddle]
    split_ifs <;> first
      | exact ⟨hx, hy⟩
      | exact ⟨abs_neg_bv, abs_neg_bv⟩
      | exact ⟨abs_bv, abs_neg_bv⟩
  · intro mBrick b hb
    obtain ⟨hx, hy⟩ := hb
    simp only [testCollisionBrick]
    split_ifs <;> first
      | exact ⟨hx, hy⟩
      | exact ⟨abs_neg_bv, hy⟩
      | exact ⟨abs_bv, hy⟩
      | exact ⟨hx, abs_neg_bv⟩
      | exact ⟨hx, abs_bv⟩
  · intro b hb
    exact ⟨hb.1, abs_neg_bv⟩

/-- Witness for **C1**: the invariant holds at the constructed ball and is
propagated through each operation at a concrete state. -/
theorem ball_axis_speed_invariant_witness :
    axisSpeedInv (Ball.mkAt 400 300) ∧
    axisSpeedInv ((Ball.mkAt 400 300).update 1) ∧
    axisSpeedInv (testCollisionPaddle (Paddle.mkAt 400 550) (Ball.mkAt 400 300)) ∧
    axisSpeedInv (testCollisionBrick (Brick.mkAt 100 50) (Ball.mkAt 400 300)).2 ∧
    axisSpeedInv (Ball.mkAt 400 300).resetBall :=
  ⟨ball_axis_speed_invariant.1 400 300,
   ball_axis_speed_invariant.2.1 (Ball.mkAt 400 300) 1 (ball_axis_speed_invariant.1 400 300),
   ball_axis_speed_invariant.2.2.1 (Paddle.mkAt 400 550) (Ball.mkAt 400 300)
     (ball_axis_speed_invariant.1 400 300),
   ball_axis_speed_invariant.2.2.2.1 (Brick.mkAt 100 50) (Ball.mkAt 400 300)
     (ball_axis_speed_invariant.1 400 300),
   ball_axis_speed_invariant.2.2.2.2 (Ball.mkAt 400 300)
     (ball_axis_speed_invariant.1 400 300)⟩

/-- **C4**: brick-ball resolution is a no-op without intersection; on
intersection the brick is marked destroyed, the ball position is untouched,
and exactly the velocity component of the axis with the strictly smaller
minimal overlap is set to the entry-side-determined signed constant while
the other component is untouched. -/
theorem testCollisionBrick_spec (mBrick : Brick) (mBall : Ball) :
    (isIntersecting mBrick.toBox mBall.toBox = false →
      testCollisionBrick mBrick mBall = (mBrick, mBall)) ∧
    (isIntersecting mBrick.toBox mBall.toBox = true →
      (testCollisionBrick mBrick mBall).1 = { mBrick with destroyed := true } ∧
      (testCollisionBrick mBrick mBall).2.pos = mBall.pos ∧
      (minOverlapX mBrick mBall < minOverlapY mBrick mBall →
        (testCollisionBrick mBrick mBall).2.velocity.x =
          (if ballFromLeft mBrick mBall then -ballVelocity else ballVelocity) ∧
        (testCollisionBrick mBrick mBall).2.velocity.y = mBall.velocity.y) ∧
      (minOverlapY mBrick mBall < minOverlapX mBrick mBall →
        (testCollisionBrick mBrick mBall).2.velocity.y =
          (if ballFromTop mBrick mBall then -ballVelocity else ballVelocity) ∧
        (testCollisionBrick mBrick mBall).2.velocity.x = mBall.velocity.x)) := by
  by_cases hI : isIntersecting mBrick.toBox mBall.toBox = true
  · have hcond : ¬ ¬ (isIntersecting mBrick.toBox mBall.toBox = true) := not_not.mpr hI
    constructor
    · intro hc
      rw [hI] at hc
      simp at hc
    · intro _
      by_cases hlt : minOverlapX mBrick mBall < minOverlapY mBrick mBall
      · have hre : testCollisionBrick mBrick mBall = ({ mBrick with destroyed := true },
            { mBall with velocity :=
              ⟨if ballFromLeft mBrick mBall then -ballVelocity else ballVelocity,
               mBall.velocity.y⟩ }) := by
          simp only [testCollisionBrick]
          rw [if_neg hcond, if_pos (show minOverlapX { mBrick with destroyed := true } mBall <
            minOverlapY { mBrick with destroyed := true } mBall from hlt)]
          rfl
        rw [hre]
        exact ⟨rfl, rfl, fun _ => ⟨rfl, rfl⟩,
          fun hgt => absurd hlt (not_lt.mpr (le_of_lt hgt))⟩
      · have hre : testCollisionBrick mBrick mBall = ({ mBrick with destroyed := true },
            { mBall with velocity :=
              ⟨mBall.velocity.x,
               if ballFromTop mBrick mBall then -ballVelocity else ballVelocity⟩ }) := by
          simp only [testCollisionBrick]
          rw [if_neg hcond, if_neg (show ¬ minOverlapX { mBrick with destroyed := true } mBall <
            minOverlapY { mBrick with destroyed := true } mBall from hlt)]
          rfl
        rw [hre]
        exact ⟨rfl, rfl, fun hc => absurd hc hlt, fun _ => ⟨rfl, rfl⟩⟩
  · have hre : testCollisionBrick mBrick mBall = (mBrick, mBall) := by
      simp only [testCollisionBrick]
      rw [if_pos hI]
    exact ⟨fun _ => hre, fun hc => absurd hc hI⟩

/-- Witness for **C4**: a non-intersecting pair is a no-op, and a concrete
intersecting hit with strictly smaller horizontal overlap flips only the
horizontal component. -/
theorem testCollisionBrick_spec_witness :
    testCollisionBrick (Brick.mkAt 500 300) (Ball.mkAt 400 300) =
      (Brick.mkAt 500 300, Ball.mkAt 400 300) ∧
    ((testCollisionBrick (Brick.mkAt 100 50) ⟨⟨65, 50⟩, ⟨2/5, 2/5⟩⟩).1 =
      { Brick.mkAt 100 50 with destroyed := true } ∧
     (testCollisionBrick (Brick.mkAt 100 50) ⟨⟨65, 50⟩, ⟨2/5, 2/5⟩⟩).2.velocity.x =
      (if ballFromLeft (Brick.mkAt 100 50) ⟨⟨65, 50⟩, ⟨2/5, 2/5⟩⟩ then -ballVelocity
       else ballVelocity) ∧
     (testCollisionBrick (Brick.mkAt 100 50) ⟨⟨65, 50⟩, ⟨2/5, 2/5⟩⟩).2.velocity.y = 2/5) :=
  ⟨(testCollisionBrick_spec (Brick.mkAt 500 300) (Ball.mkAt 400 300)).1
     (by norm_num [isIntersecting]),
   ((testCollisionBrick_spec (Brick.mkAt 100 50) ⟨⟨65, 50⟩, ⟨2/5, 2/5⟩⟩).2
       (by norm_num [isIntersecting])).1,
   (((testCollisionBrick_spec (Brick.mkAt 100 50) ⟨⟨65, 50⟩, ⟨2/5, 2/5⟩⟩).2
       (by norm_num [isIntersecting])).2.2.1
     (by norm_num [minOverlapX, minOverlapY, ballFromLeft, ballFromTop, overlapLeft,
        overlapRight, overlapTop, overlapBottom])).1,
   (((testCollisionBrick_spec (Brick.mkAt 100 50) ⟨⟨65, 50⟩, ⟨2/5, 2/5⟩⟩).2
       (by norm_num [isIntersecting])).2.2.1
     (by norm_num [minOverlapX, minOverlapY, ballFromLeft, ballFromTop, overlapLeft,
        overlapRight, overlapTop, overlapBottom])).2⟩

/-- **C10**: the tie-break of brick-ball resolution — when the minimal
horizontal and vertical overlaps are exactly equal, the `else` branch runs:
the vertical velocity component is set to the entry-side-determined signed
constant and the horizontal component is untouched. -/
theorem testCollisionBrick_tie (mBrick : Brick) (mBall : Ball)
    (hI : isIntersecting mBrick.toBox mBall.toBox = true)
    (htie : minOverlapX mBrick mBall = minOverlapY mBrick mBall) :
    (testCollisionBrick mBrick mBall).2.velocity.y =
      (if ballFromTop mBrick mBall then -ballVelocity else ballVelocity) ∧
    (testCollisionBrick mBrick mBall).2.velocity.x = mBall.velocity.x ∧
    (testCollisionBrick mBrick mBall).1.destroyed = true := by
  simp only [testCollisionBrick]
  rw [if_neg (not_not.mpr hI)]
  rw [if_neg (show ¬ minOverlapX { mBrick with destroyed := true } mBall <
      minOverlapY { mBrick with destroyed := true } mBall from not_lt.mpr htie.ge)]
  exact ⟨rfl, rfl, rfl⟩

/-- Witness for **C10**: a concrete hit with both minimal overlaps equal to
`5` takes the vertical branch and keeps the horizontal velocity. -/
theorem testCollisionBrick_tie_witness :
    (testCollisionBrick (Brick.mkAt 100 50) ⟨⟨65, 35⟩, ⟨2/5, 2/5⟩⟩).2.velocity.y =
      (if ballFromTop (Brick.mkAt 100 50) ⟨⟨65, 35⟩, ⟨2/5, 2/5⟩⟩ then -ballVelocity
       else ballVelocity) ∧
    (testCollisionBrick (Brick.mkAt 100 50) ⟨⟨65, 35⟩, ⟨2/5, 2/5⟩⟩).2.velocity.x = 2/5 ∧
    (testCollisionBrick (Brick.mkAt 100 50) ⟨⟨65, 35⟩, ⟨2/5, 2/5⟩⟩).1.destroyed = true :=
  testCollisionBrick_tie (Brick.mkAt 100 50) ⟨⟨65, 35⟩, ⟨2/5, 2/5⟩⟩
    (by norm_num [isIntersecting])
    (by norm_num [minOverlapX, minOverlapY, ballFromLeft, ballFromTop, overlapLeft,
      overlapRight, overlapTop, overlapBottom])

/-- Every brick surviving the end-of-step erase-remove has its destroyed
flag cleared (it was never set: the filter keeps only `!destroyed`). -/
theorem simStep_bricks_not_destroyed (keys : Keys) (e : Entities) :
    ∀ mBrick ∈ (simStep keys e).bricks, mBrick.destroyed = false := by
  intro mBrick hmem
  simp only [simStep] at hmem
  rw [List.mem_filter] at hmem
  simpa using hmem.2

/-- **C2**: a brick marked destroyed during a step is removed from the live
collection before the next step begins — the post-step population contains
only `destroyed = false` bricks, a destroyed brick value is never a member
of it, and any brick that intersects the ball when tested is marked
destroyed. -/
theorem destroyed_removed_before_next_step :
    (∀ (keys : Keys) (e : Entities),
      (simStep keys e).bricks.all (fun mBrick => !mBrick.destroyed) = true) ∧
    (∀ (keys : Keys) (e : Entities) (mBrick : Brick), mBrick.destroyed = true →
      mBrick ∉ (simStep keys e).bricks) ∧
    (∀ (mBrick : Brick) (mBall : Ball), isIntersecting mBrick.toBox mBall.toBox = true →
      (testCollisionBrick mBrick mBall).1.destroyed = true) := by
  refine ⟨?_, ?_, ?_⟩
  · intro keys e
    rw [List.all_eq_true]
    intro mBrick hmem
    simp [simStep_bricks_not_destroyed keys e mBrick hmem]
  · intro keys e mBrick hd hmem
    rw [simStep_bricks_not_destroyed keys e mBrick hmem] at hd
    simp at hd
  · intro mBrick mBall hI
    simp only [testCollisionBrick]
    rw [if_neg (not_not.mpr hI)]
    by_cases hlt : minOverlapX { mBrick with destroyed := true } mBall <
        minOverlapY { mBrick with destroyed := true } mBall
    · rw [if_pos hlt]
    · rw [if_neg hlt]

/-- Sample keyboard state: nothing pressed. -/
def sampleKeys : Keys := ⟨false, false, false, false⟩

/-- Sample entity state with a single live brick. -/
def sampleEntities : Entities := ⟨Ball.mkAt 400 300, Paddle.mkAt 400 550, [Brick.mkAt 100 50]⟩

/-- Witness for **C2**: a destroyed brick value is absent from the post-step
population of a concrete state, and a concrete intersecting hit marks the
brick destroyed. -/
theorem destroyed_removed_before_next_step_witness :
    (⟨⟨100, 50⟩, true⟩ : Brick) ∉ (simStep sampleKeys sampleEntities).bricks ∧
    (testCollisionBrick (Brick.mkAt 100 50) ⟨⟨65, 50⟩, ⟨2/5, 2/5⟩⟩).1.destroyed = true :=
  ⟨destroyed_removed_before_next_step.2.1 sampleKeys sampleEntities ⟨⟨100, 50⟩, true⟩ rfl,
   destroyed_removed_before_next_step.2.2 (Brick.mkAt 100 50) ⟨⟨65, 50⟩, ⟨2/5, 2/5⟩⟩
     (by norm_num [isIntersecting])⟩

/-- Iterated `Paddle::update` at the fixed step size, one call per element
of the sampled keyboard-state sequence. -/
def paddleRun (inputs : List Keys) (p : Paddle) : Paddle :=
  inputs.foldl (fun q keys => q.update keys ftStep) p

/-- The inductive invariant of the paddle: integer center, center within
`[paddleWidth/2, windowWidth - paddleWidth/2]`, velocity in
`{-paddleVelocity, 0, paddleVelocity}` with the boundary guards that held
when it was set, and zero vertical velocity. -/
def PaddleInv (p : Paddle) : Prop :=
  (∃ n : ℤ, p.pos.x = (n : ℚ)) ∧
  paddleWidth / 2 ≤ p.pos.x ∧
  p.pos.x ≤ windowWidth - paddleWidth / 2 ∧
  (p.velocity.x = -paddleVelocity ∨ p.velocity.x = 0 ∨ p.velocity.x = paddleVelocity) ∧
  (p.velocity.x = -paddleVelocity → p.left > 0) ∧
  (p.velocity.x = paddleVelocity → p.right < windowWidth) ∧
  p.velocity.y = 0

/-- One `Paddle::update` call at the fixed step preserves the paddle
invariant and never moves the paddle vertically. -/
theorem paddle_update_inv (p : Paddle) (keys : Keys) (h : PaddleInv p) :
    PaddleInv (p.update keys ftStep) ∧ (p.update keys ftStep).pos.y = p.pos.y := by
  obtain ⟨⟨n, hn⟩, hlo, hhi, hv, hvl, hvr, hvy⟩ := h
  simp only [paddleWidth, windowWidth, paddleVelocity] at hlo hhi hv hvl hvr
  simp only [Paddle.left, Paddle.right, Paddle.x, paddleWidth, windowWidth] at hvl hvr
  have hx1 : (30 : ℚ) ≤ p.pos.x + p.velocity.x * ftStep ∧
      p.pos.x + p.velocity.x * ftStep ≤ 770 ∧
      ∃ m : ℤ, p.pos.x + p.velocity.x * ftStep = (m : ℚ) := by
    rcases hv with hc | hc | hc
    · have hgt : (30 : ℚ) < p.pos.x := by linarith [hvl hc]
      have hngt : (30 : ℤ) < n := by
        rw [hn] at hgt
        exact_mod_cast hgt
      refine ⟨?_, ?_, ⟨n - 1, ?_⟩⟩
      · rw [hn, hc]
        simp only [ftStep]
        have : (31 : ℤ) ≤ n := by omega
        have hq : (31 : ℚ) ≤ (n : ℚ) := by exact_mod_cast this
        linarith
      · rw [hc]
        simp only [ftStep]
        linarith
      · rw [hn, hc]
        simp only [ftStep]
        push_cast
        ring
    · refine ⟨?_, ?_, ⟨n, ?_⟩⟩ <;> rw [hc] <;> simp only [ftStep] <;> linarith
    · have hlt : p.pos.x < (770 : ℚ) := by linarith [hvr hc]
      have hnlt : n < (770 : ℤ) := by
        rw [hn] at hlt
        exact_mod_cast hlt
      refine ⟨?_, ?_, ⟨n + 1, ?_⟩⟩
      · rw [hc]
        simp only [ftStep]
        linarith
      · rw [hn, hc]
        simp only [ftStep]
        have : n ≤ (769 : ℤ) := by omega
        have hq : (n : ℚ) ≤ 769 := by exact_mod_cast this
        linarith
      · rw [hn, hc]
        simp only [ftStep]
        push_cast
        ring
  obtain ⟨hb1, hb2, m, hm⟩ := hx1
  simp only [Paddle.update]
  split_ifs with h1 h2
  · refine ⟨⟨⟨m, hm⟩, by norm_num at hb1 ⊢; linarith, by norm_num at hb2 ⊢; linarith, Or.inl rfl,
      fun _ => ?_, fun hc => absurd hc (by norm_num), by simpa using hvy⟩, by simp [hvy]⟩
    simpa using h1.2
  · refine ⟨⟨⟨m, hm⟩, by norm_num at hb1 ⊢; linarith, by norm_num at hb2 ⊢; linarith, Or.inr (Or.inr rfl),
      fun hc => absurd hc (by norm_num), fun _ => ?_, by simpa using hvy⟩, by simp [hvy]⟩
    simpa using h2.2
  · exact ⟨⟨⟨m, hm⟩, by norm_num at hb1 ⊢; linarith, by norm_num at hb2 ⊢; linarith, Or.inr (Or.inl rfl),
      fun hc => absurd hc (by norm_num), fun hc => absurd hc (by norm_num),
      by simpa using hvy⟩, by simp [hvy]⟩

/-- The paddle invariant propagates through any sequence of updates, and the
vertical position never changes. -/
theorem paddleRun_inv (inputs : List Keys) (p : Paddle) (h : PaddleInv p) :
    PaddleInv (paddleRun inputs p) ∧ (paddleRun inputs p).pos.y = p.pos.y := by
  induction inputs generalizing p with
  | nil => exact ⟨h, rfl⟩
  | cons k ks ih =>
      have hstep := paddle_update_inv p k h
      have htail := ih (p.update k ftStep) hstep.1
      exact ⟨htail.1, htail.2.trans hstep.2⟩

/-- **C6**: starting from the constructed paddle, after any sequence of
well-formed inputs and any number of updates the paddle center stays within
`[paddleWidth/2, windowWidth - paddleWidth/2]` (left edge never below `0`,
right edge never beyond the window) and the vertical position never
changes. -/
theorem paddle_position_bounds (inputs : List Keys) :
    paddleWidth / 2 ≤ (paddleRun inputs initialEntities.paddle).pos.x ∧
    (paddleRun inputs initialEntities.paddle).pos.x ≤ windowWidth - paddleWidth / 2 ∧
    (paddleRun inputs initialEntities.paddle).pos.y = initialEntities.paddle.pos.y := by
  have hinit : PaddleInv initialEntities.paddle := by
    refine ⟨⟨400, by norm_num [initialEntities]⟩, by norm_num [initialEntities],
      by norm_num [initialEntities], Or.inr (Or.inl (by norm_num [initialEntities])),
      fun hc => absurd hc (by norm_num [initialEntities]),
      fun hc => absurd hc (by norm_num [initialEntities]), by norm_num [initialEntities]⟩
  have h := paddleRun_inv inputs initialEntities.paddle hinit
  exact ⟨h.1.2.1, h.1.2.2.1, h.2⟩

/-- Draining the accumulator frame-by-frame equals draining it in one lump:
after `runSlices` consumed `s`, feeding `d ≥ 0` more time continues exactly
where a single run over `s + d` would be, with step counts adding up. -/
theorem runSlices_chunk (keys : Keys) (d : ℚ) (hd : 0 ≤ d) :
    ∀ (s : ℚ) (e : Entities),
      (runSlices keys ((runSlices keys s e).1 + d) (runSlices keys s e).2.1).1 =
        (runSlices keys (s + d) e).1 ∧
      (runSlices keys ((runSlices keys s e).1 + d) (runSlices keys s e).2.1).2.1 =
        (runSlices keys (s + d) e).2.1 ∧
      (runSlices keys s e).2.2 +
        (runSlices keys ((runSlices keys s e).1 + d) (runSlices keys s e).2.1).2.2 =
        (runSlices keys (s + d) e).2.2 := by
  intro s e
  induction s, e using runSlices.induct keys with
  | case1 s e h ih =>
      have hge : ftSlice ≤ s + d := by linarith
      have harr : s + d - ftSlice = s - ftSlice + d := by ring
      have e1 : (runSlices keys s e).1 = (runSlices keys (s - ftSlice) (simStep keys e)).1 := by
        rw [runSlices_ge keys s e h]
      have e2 : (runSlices keys s e).2.1 =
          (runSlices keys (s - ftSlice) (simStep keys e)).2.1 := by
        rw [runSlices_ge keys s e h]
      have e3 : (runSlices keys s e).2.2 =
          (runSlices keys (s - ftSlice) (simStep keys e)).2.2 + 1 := by
        rw [runSlices_ge keys s e h]
      have f1 : (runSlices keys (s + d) e).1 =
          (runSlices keys (s - ftSlice + d) (simStep keys e)).1 := by
        rw [runSlices_ge keys (s + d) e hge, harr]
      have f2 : (runSlices keys (s + d) e).2.1 =
          (runSlices keys (s - ftSlice + d) (simStep keys e)).2.1 := by
        rw [runSlices_ge keys (s + d) e hge, harr]
      have f3 : (runSlices keys (s + d) e).2.2 =
          (runSlices keys (s - ftSlice + d) (simStep keys e)).2.2 + 1 := by
        rw [runSlices_ge keys (s + d) e hge, harr]
      refine ⟨?_, ?_, ?_⟩
      · rw [e1, e2, f1]
        exact ih.1
      · rw [e1, e2, f2]
        exact ih.2.1
      · rw [e1, e2, e3, f3]
        have hcount := ih.2.2
        omega
  | case2 s e h =>
      have e0 : runSlices keys s e = (s, e, 0) := runSlices_lt keys s e h
      rw [e0]
      refine ⟨rfl, rfl, ?_⟩
      show 0 + (runSlices keys (s + d) e).2.2 = (runSlices keys (s + d) e).2.2
      omega

/-- **C3**: fixed-step determinism of the scheduler.  From the same initial
entity state, accumulator and keyboard input, consuming a frame of duration
`d1` and then a frame of duration `d2 ≥ 0` reaches exactly the accumulator
and entity state of a single frame of duration `d1 + d2`, and the executed
simulation-step counts add up — the step sequence is independent of how the
total time was chunked across frames. -/
theorem fixed_step_determinism (keys : Keys) (e : Entities) (s d1 d2 : ℚ)
    (hd2 : 0 ≤ d2) :
    (updatePhase keys d2 (updatePhase keys d1 s e).1 (updatePhase keys d1 s e).2.1).1 =
      (updatePhase keys (d1 + d2) s e).1 ∧
    (updatePhase keys d2 (updatePhase keys d1 s e).1 (updatePhase keys d1 s e).2.1).2.1 =
      (updatePhase keys (d1 + d2) s e).2.1 ∧
    (updatePhase keys d1 s e).2.2 +
      (updatePhase keys d2 (updatePhase keys d1 s e).1 (updatePhase keys d1 s e).2.1).2.2 =
      (updatePhase keys (d1 + d2) s e).2.2 := by
  have h := runSlices_chunk keys d2 hd2 (s + d1) e
  simp only [updatePhase]
  rw [show s + (d1 + d2) = s + d1 + d2 from by ring]
  exact h

/-- Witness for **C3**: the spec's example — two frames of duration `1` from
a zero accumulator reach the same state and accumulator, with the same total
step count, as one frame of duration `2 = 1 + 1`. -/
theorem fixed_step_determinism_witness :
    (updatePhase sampleKeys 1 (updatePhase sampleKeys 1 0 sampleEntities).1
        (updatePhase sampleKeys 1 0 sampleEntities).2.1).1 =
      (updatePhase sampleKeys (1 + 1) 0 sampleEntities).1 ∧
    (updatePhase sampleKeys 1 (updatePhase sampleKeys 1 0 sampleEntities).1
        (updatePhase sampleKeys 1 0 sampleEntities).2.1).2.1 =
      (updatePhase sampleKeys (1 + 1) 0 sampleEntities).2.1 ∧
    (updatePhase sampleKeys 1 0 sampleEntities).2.2 +
      (updatePhase sampleKeys 1 (updatePhase sampleKeys 1 0 sampleEntities).1
        (updatePhase sampleKeys 1 0 sampleEntities).2.1).2.2 =
      (updatePhase sampleKeys (1 + 1) 0 sampleEntities).2.2 :=
  fixed_step_determinism sampleKeys sampleEntities 0 1 1 (by norm_num)

/-- After an iteration whose input sampled the Escape key as held, the
running flag is cleared. -/
theorem loopIteration_escape_stops (f : Frame) (g : Game)
    (hesc : f.input.keys.escapeDown = true) :
    (loopIteration f g).running = false := by
  simp only [loopIteration, drawPhase, updatePhaseGame, updatePhase, inputPhase, hesc]
  split_ifs <;> rfl

/-- **C8** (amended): the loop leaves Running exactly on Escape — when the
flag is set and a frame samples Escape, that iteration runs to completion
and the loop executes no further iterations; a window-close event merely
closes the window, leaving the running flag unchanged. -/
theorem escape_quits_after_draw (g : Game) (f : Frame) (rest : List Frame)
    (hrun : g.running = true) (hesc : f.input.keys.escapeDown = true) :
    runLoop (f :: rest) g = (loopIteration f g, 1) ∧
    (loopIteration f g).running = false ∧
    (∀ inp : FrameInput, inp.closeEvent = true → inp.keys.escapeDown = false →
      (inputPhase inp g).running = g.running ∧ (inputPhase inp g).windowOpen = false) := by
  refine ⟨?_, loopIteration_escape_stops f g hesc, ?_⟩
  · have hstop := loopIteration_escape_stops f g hesc
    simp only [runLoop, hrun, eq_self_iff_true, if_true]
    rw [runLoop_stopped rest _ hstop]
  · intro inp hclose hesc2
    simp only [inputPhase, hclose, hesc2]
    constructor <;> split_ifs <;> first | rfl | simp_all

/-- Witness for **C8**: at a concrete running game, a frame holding Escape
ends the loop after its own iteration. -/
theorem escape_quits_after_draw_witness :
    runLoop [⟨⟨false, ⟨false, false, true, false⟩⟩, 0⟩]
        ⟨true, 0, 0, true, sampleEntities⟩ =
      (loopIteration ⟨⟨false, ⟨false, false, true, false⟩⟩, 0⟩
        ⟨true, 0, 0, true, sampleEntities⟩, 1) ∧
    (loopIteration ⟨⟨false, ⟨false, false, true, false⟩⟩, 0⟩
        ⟨true, 0, 0, true, sampleEntities⟩).running = false :=
  ⟨(escape_quits_after_draw ⟨true, 0, 0, true, sampleEntities⟩
      ⟨⟨false, ⟨false, false, true, false⟩⟩, 0⟩ [] rfl rfl).1,
   (escape_quits_after_draw ⟨true, 0, 0, true, sampleEntities⟩
      ⟨⟨false, ⟨false, false, true, false⟩⟩, 0⟩ [] rfl rfl).2.1⟩

/-- The sample running game used to exhibit the close-event behavior. -/
def sampleLoopGame : Game :=
  { windowOpen := true, lastFT := 0, currentSlice := 0, running := true,
    entities := sampleEntities }

/-- A frame whose polled events contain `Event::Closed` and whose keyboard
has no key held. -/
def closeFrame : Frame := ⟨⟨true, ⟨false, false, false, false⟩⟩, 0⟩

/-- Counterexample to **C8** as stated: an iteration observes a window-close
event during input sampling, yet afterwards the running flag is still true
and the loop executes a further full iteration. -/
theorem close_event_does_not_stop_loop :
    (loopIteration closeFrame sampleLoopGame).running = true ∧
    (runLoop [closeFrame, closeFrame] sampleLoopGame).2 = 2 := by
  have h0 : ∀ (keys : Keys) (e : Entities), runSlices keys (0 : ℚ) e = (0, e, 0) :=
    fun keys e => runSlices_lt keys 0 e (by norm_num)
  constructor
  · simp [loopIteration, inputPhase, drawPhase, updatePhaseGame, updatePhase,
      sampleLoopGame, closeFrame, h0]
  · simp [runLoop, loopIteration, inputPhase, drawPhase, updatePhaseGame, updatePhase,
      sampleLoopGame, closeFrame, h0]
